import Mathlib

/-!
Formal model of the genpygoodies drawing library.

The Python sources are embedded shallowly:

* `generativepy.math.Vector` becomes the pair type `Vec := ℝ × ℝ`, with
  `len`, `polar` and `angle` modelling `.length`, `Vector.polar` and `.angle`
  (the angle of a vector is the argument of the corresponding complex number).
* Drawing calls (`Circle`, `Line`, `Text`, `ParallelMarker`, arcs) are modelled
  as emitted `DrawOp` values, listed in the order the Python code issues them.
  Colour, font and line-style parameters affect only the appearance of the
  emitted primitives, never their geometry, number or order, so they are not
  recorded in the operations; geometric style parameters (vertex radius, text
  size, line width where it determines marker length) are kept, together with
  the `None`-override resolution logic of the source.
* Python runtime errors (`ZeroDivisionError`, `ValueError` from `math.asin`,
  `IndexError` from list indexing) make the corresponding Lean function return
  `none` / `Except.error`.
-/

namespace Genpygoodies

/-- A 2D point or vector, modelling `generativepy.math.Vector`. -/
abbrev Vec : Type := ℝ × ℝ

/-- Length (magnitude) of a vector, modelling `Vector.length`. -/
noncomputable def len (v : Vec) : ℝ := Real.sqrt (v.1 ^ 2 + v.2 ^ 2)

/-- Polar construction, modelling `Vector.polar(r, angle)`. -/
noncomputable def polar (r θ : ℝ) : Vec := (r * Real.cos θ, r * Real.sin θ)

/-- Angle of a vector, modelling `Vector.angle` (`atan2(y, x)`), expressed as
the argument of the complex number `x + y*i`. -/
noncomputable def angle (v : Vec) : ℝ := Complex.arg ⟨v.1, v.2⟩

/-- Euclidean inner product of two vectors (used to state perpendicularity). -/
def dot (u v : Vec) : ℝ := u.1 * v.1 + u.2 * v.2

/-- A primitive drawing operation emitted to the drawing context.
`circle` records `Circle(ctx).of_center_radius`, `arc` the same with
`.as_arc(a1, a2)`, `line` a `Line(ctx).of_start_end`, `marker` a
`ParallelMarker(ctx).of_start_end(...).with_length(len)`, and `text` a
`Text(ctx).of(...)` with its size and offset (vertex labels carry the
default offset `(0, 0)`, since `Vertex.draw` never calls `.offset`). -/
inductive DrawOp : Type where
  | circle (center : Vec) (radius : ℝ)
  | arc (center : Vec) (radius startAngle endAngle : ℝ)
  | line (p0 p1 : Vec)
  | marker (p0 p1 : Vec) (markLen : ℝ)
  | text (pos : Vec) (size : ℝ) (offset : Vec)

/-! ### The curved-edge arc solver, `Edge.arc_between_points` (graph.py 230-242)

The Python body is

    x, y = p1 - p0
    a = (p1 - p0).angle - math.radians(90)
    l = (p1 - p0).length
    radius = l/(1.2*self.curvature)
    b = math.asin(l/(2*radius))
    h = radius*math.cos(b)
    c = p0 + V(x/2 - h*(y/l), y/2 + h*(x/l))
    Circle(ctx).of_center_radius(c, radius).as_arc(a-b, a+b).stroke(color, lw)
    return c + V.polar(radius, a)

Each intermediate value becomes a named definition. -/

/-- The chord length `l = (p1 - p0).length`. -/
noncomputable def chordLen (p0 p1 : Vec) : ℝ := len (p1 - p0)

/-- The radius `radius = l/(1.2*curvature)`. -/
noncomputable def arcRadius (p0 p1 : Vec) (curvature : ℝ) : ℝ :=
  chordLen p0 p1 / (1.2 * curvature)

/-- The argument `l/(2*radius)` passed to `math.asin`. -/
noncomputable def asinArg (p0 p1 : Vec) (curvature : ℝ) : ℝ :=
  chordLen p0 p1 / (2 * arcRadius p0 p1 curvature)

/-- The half-angle `b = asin(l/(2*radius))`. -/
noncomputable def arcHalfAngle (p0 p1 : Vec) (curvature : ℝ) : ℝ :=
  Real.arcsin (asinArg p0 p1 curvature)

/-- The chord direction angle `a = (p1 - p0).angle - math.radians(90)`. -/
noncomputable def arcChordAngle (p0 p1 : Vec) : ℝ :=
  angle (p1 - p0) - Real.pi / 2

/-- The height `h = radius*math.cos(b)`. -/
noncomputable def arcHeight (p0 p1 : Vec) (curvature : ℝ) : ℝ :=
  arcRadius p0 p1 curvature * Real.cos (arcHalfAngle p0 p1 curvature)

/-- The arc centre `c = p0 + V(x/2 - h*(y/l), y/2 + h*(x/l))`. -/
noncomputable def arcCenter (p0 p1 : Vec) (curvature : ℝ) : Vec :=
  p0 + ((p1 - p0).1 / 2 - arcHeight p0 p1 curvature * ((p1 - p0).2 / chordLen p0 p1),
        (p1 - p0).2 / 2 + arcHeight p0 p1 curvature * ((p1 - p0).1 / chordLen p0 p1))

/-- The returned apex `c + V.polar(radius, a)`. -/
noncomputable def arcApex (p0 p1 : Vec) (curvature : ℝ) : Vec :=
  arcCenter p0 p1 curvature + polar (arcRadius p0 p1 curvature) (arcChordAngle p0 p1)

/-- Embedding of `Edge.arc_between_points`: the emitted stroked arc together
with the returned apex point.  `none` models the Python exceptions: a
`ZeroDivisionError` when the curvature is zero (in `l/(1.2*curvature)`) or the
points coincide (`l = 0`, so `radius = 0` and `y/l`, `l/(2*radius)` divide by
zero), and the `ValueError` raised by `math.asin` when its argument leaves
`[-1, 1]`.  The source contains no guard: the `asin` call itself fails. -/
noncomputable def arcBetweenPoints (p0 p1 : Vec) (curvature : ℝ) :
    Option (List DrawOp × Vec) :=
  if curvature = 0 ∨ chordLen p0 p1 = 0 then none
  else if 1 < |asinArg p0 p1 curvature| then none
  else some ([DrawOp.arc (arcCenter p0 p1 curvature) (arcRadius p0 p1 curvature)
                (arcChordAngle p0 p1 - arcHalfAngle p0 p1 curvature)
                (arcChordAngle p0 p1 + arcHalfAngle p0 p1 curvature)],
             arcApex p0 p1 curvature)

/-! ### Loop edges and weight labels (`Edge.draw`, graph.py 196-228) -/

/-- The loop centre `c = p0 + V.polar(vertex_radius + self.loop_radius*0.8,
self.loop_angle)` computed by `Edge.draw` for a self-loop (graph.py 204). -/
noncomputable def loopCenter (p : Vec) (vertexRadius loopRadius loopAngle : ℝ) : Vec :=
  p + polar (vertexRadius + loopRadius * 0.8) loopAngle

/-- The loop apex `apex = c + V.polar(self.loop_radius, self.loop_angle)`
(graph.py 206). -/
noncomputable def loopApex (p : Vec) (vertexRadius loopRadius loopAngle : ℝ) : Vec :=
  loopCenter p vertexRadius loopRadius loopAngle + polar loopRadius loopAngle

/-- The offset applied to a weight label: `V.polar(text_size*0.7,
direction.angle - math.radians(90)) if self.offset is None else V(self.offset)`.
This expression appears verbatim in all three branches of `Edge.draw`
(graph.py 211, 219, 227), with `direction` the branch's edge direction. -/
noncomputable def weightOffset (offset : Option Vec) (text_size : ℝ) (direction : Vec) : Vec :=
  match offset with
  | some o => o
  | none => polar (text_size * 0.7) (angle direction - Real.pi / 2)

/-! ### Vertices, edges and graphs (graph.py) -/

/-- A graph vertex (graph.py `Vertex.__init__`).  Only the fields that affect
the geometry of the emitted operations are kept; `fgcolor`, `bgcolor`, `lw`
and `font` only restyle the same primitives. -/
structure Vertex : Type where
  position : Vec := (0, 0)
  label : String := ""
  radius : Option ℝ := none
  text_size : Option ℝ := none

/-- Operations emitted by `Vertex.draw` (graph.py 93-100): the `None`-override
resolution for radius and text size, then a filled+stroked circle and a
centred text label. -/
noncomputable def Vertex.drawOps (v : Vertex) (radius text_size : ℝ) : List DrawOp :=
  let radius := match v.radius with | none => radius | some r => r
  let text_size := match v.text_size with | none => text_size | some t => t
  [DrawOp.circle v.position radius, DrawOp.text v.position text_size (0, 0)]

/-- A graph edge (graph.py `Edge.__init__`), with the constructor defaults.
`endIdx` models the Python attribute `end` (a reserved word in Lean).
Colour and font fields are omitted (style only); `lw` is kept because it
determines the direction-marker length. -/
structure Edge : Type where
  start : ℤ
  endIdx : ℤ
  directed : Bool := false
  weight : Option ℝ := none
  offset : Option Vec := none
  curve : Bool := false
  curvature : ℝ := 1
  lw : Option ℝ := none
  text_size : Option ℝ := none
  loop_radius : ℝ := 30
  loop_angle : ℝ := 0

/-- Python list indexing `l[i]`: negative indices count from the end and an
out-of-range index raises `IndexError`, modelled as `none`. -/
def pyIdx {α : Type} (l : List α) (i : ℤ) : Option α :=
  if 0 ≤ i then l[i.toNat]?
  else if 0 ≤ (l.length : ℤ) + i then l[((l.length : ℤ) + i).toNat]?
  else none

/-- Operations emitted by `Edge.draw` (graph.py 171-228): override resolution
for `lw` and `text_size`, vertex lookup, then the loop / straight / curved
branch, each drawing its main stroke, then the optional direction marker,
then the optional weight label.  `none` models the `IndexError` from a bad
vertex index or the exceptions of `arc_between_points`. -/
noncomputable def Edge.drawOps (e : Edge) (vertices : List Vertex)
    (lw text_size vertex_radius : ℝ) : Option (List DrawOp) :=
  let lw := match e.lw with | none => lw | some w => w
  let text_size := match e.text_size with | none => text_size | some t => t
  match pyIdx vertices e.start, pyIdx vertices e.endIdx with
  | some v0, some v1 =>
    let p0 := v0.position
    let p1 := v1.position
    if e.start = e.endIdx then
      -- Loop
      let c := loopCenter p0 vertex_radius e.loop_radius e.loop_angle
      let apex := loopApex p0 vertex_radius e.loop_radius e.loop_angle
      let direction := polar e.loop_radius (e.loop_angle + Real.pi / 2)
      some ([DrawOp.circle c e.loop_radius]
        ++ (if e.directed then
              [DrawOp.marker (apex - direction) (apex + direction) (lw * 4)] else [])
        ++ (match e.weight with
            | none => []
            | some _ => [DrawOp.text apex text_size (weightOffset e.offset text_size direction)]))
    else if !e.curve then
      -- Straight edge
      let direction := p1 - p0
      some ([DrawOp.line p0 p1]
        ++ (if e.directed then [DrawOp.marker p0 p1 (lw * 4)] else [])
        ++ (match e.weight with
            | none => []
            | some _ => [DrawOp.text ((1 / 2 : ℝ) • (p0 + p1)) text_size
                           (weightOffset e.offset text_size direction)]))
    else
      -- Curved edge
      let direction := p1 - p0
      match arcBetweenPoints p0 p1 e.curvature with
      | none => none
      | some (arcOps, apex) =>
        some (arcOps
          ++ (if e.directed then
                [DrawOp.marker (apex - direction) (apex + direction) (lw * 4)] else [])
          ++ (match e.weight with
              | none => []
              | some _ => [DrawOp.text apex text_size (weightOffset e.offset text_size direction)]))
  | _, _ => none

/-- A graph (graph.py `Graph.__init__`) with its default style parameters
`lw=4`, `radius=30`, `text_size=30` (colours and font omitted: style only). -/
structure Graph : Type where
  vertices : List Vertex := []
  edges : List Edge := []
  lw : ℝ := 4
  radius : ℝ := 30
  text_size : ℝ := 30

/-- The argument of `Graph.add`: a `Vertex`, an `Edge`, or any other object
(the Python method `isinstance`-tests its argument and silently ignores
anything that is neither). -/
inductive GraphItem : Type where
  | vertex (v : Vertex)
  | edge (e : Edge)
  | other

/-- Embedding of `Graph.add` (graph.py 290-305): append a `Vertex` to the
vertex list, append an `Edge` to the edge list, and leave the graph unchanged
(raising nothing) for any other item. -/
def Graph.add (g : Graph) : GraphItem → Graph
  | GraphItem.vertex v => { g with vertices := g.vertices ++ [v] }
  | GraphItem.edge e => { g with edges := g.edges ++ [e] }
  | GraphItem.other => g

/-- Embedding of `Graph.draw` (graph.py 307-323): draw every edge in list
order, then every vertex in list order.  `none` models an exception escaping
from an edge draw (which in Python aborts the remaining drawing). -/
noncomputable def Graph.drawOps (g : Graph) : Option (List DrawOp) :=
  match g.edges.mapM (fun e => e.drawOps g.vertices g.lw g.text_size g.radius) with
  | none => none
  | some edgeOpss =>
      some (edgeOpss.flatten
        ++ (g.vertices.map (fun v => v.drawOps g.radius g.text_size)).flatten)

/-- The four-vertex scenario graph of the specification: vertices at
(100,100), (100,300), (200,50), (300,200) and straight undirected unweighted
edges (0,1), (1,3), (2,0), (3,2), with the default graph style. -/
noncomputable def scenarioGraph : Graph :=
  { vertices := [{ position := (100, 100), label := "A" },
                 { position := (100, 300), label := "B" },
                 { position := (200, 50), label := "C" },
                 { position := (300, 200), label := "D" }]
    edges := [{ start := 0, endIdx := 1 }, { start := 1, endIdx := 3 },
              { start := 2, endIdx := 0 }, { start := 3, endIdx := 2 }] }

/-! ### Symbols and connectors (symbol.py, logicgates.py) -/

/-- The observable state of a `Symbol` (symbol.py `Symbol.__init__`):
its placement position, width, the optional explicitly-set height
(`_fixed_height`) and the connector table `_connectors`, a sequence of sides
each holding a sequence of local-space connector points. -/
structure Symbol : Type where
  position : Vec
  width : ℝ
  fixedHeight : Option ℝ := none
  connectors : List (List Vec) := []

/-- Embedding of `Symbol.get_connector` (symbol.py 78-99): raise
`ValueError("Connector column out of range")` if `col < 0 or col >=
len(self._connectors)`, raise `ValueError("Connector row out of range")` if
`row < 0 or row >= len(self._connectors[col])`, otherwise return
`V(self._connectors[col][row]) + self.position`.  The `getD` defaults are
never reached: both lookups are guarded by the bounds tests. -/
def Symbol.getConnector (s : Symbol) (col row : ℤ) : Except String Vec :=
  if col < 0 ∨ (s.connectors.length : ℤ) ≤ col then
    Except.error "Connector column out of range"
  else
    let pts := s.connectors.getD col.toNat []
    if row < 0 ∨ (pts.length : ℤ) ≤ row then
      Except.error "Connector row out of range"
    else
      Except.ok (pts.getD row.toNat (0, 0) + s.position)

/-- State-passing form of `get_connector`: the Python method body contains no
assignment to `self` (or to anything else), so the post-state is literally the
pre-state. -/
def Symbol.getConnectorS (s : Symbol) (col row : ℤ) : Except String Vec × Symbol :=
  (s.getConnector col row, s)

/-- The in-range condition for a connector access `(col, row)`. -/
def connectorInRange (s : Symbol) (col row : ℤ) : Prop :=
  0 ≤ col ∧ col < (s.connectors.length : ℤ) ∧
  0 ≤ row ∧ row < ((s.connectors.getD col.toNat []).length : ℤ)

/-- Embedding of the `Symbol.height` property (symbol.py 115-127):
`self._fixed_height if self._fixed_height else self.get_default_height()`.
Python truthiness makes both `None` and `0` fall back to the default height,
which is supplied by the (abstract) `get_default_height` of the subclass and
is passed here as `defaultHeight`. -/
noncomputable def Symbol.height (s : Symbol) (defaultHeight : ℝ) : ℝ :=
  match s.fixedHeight with
  | none => defaultHeight
  | some h => if h = 0 then defaultHeight else h

/-- `Buffer.get_default_height` (logicgates.py 67-68): returns the width. -/
def Buffer.getDefaultHeight (width : ℝ) : ℝ := width

/-- `And.get_default_height` (logicgates.py 126-127): returns the width. -/
def AndGate.getDefaultHeight (width : ℝ) : ℝ := width

/-- `Or.get_default_height` (logicgates.py 188-189): returns the width. -/
def OrGate.getDefaultHeight (width : ℝ) : ℝ := width

/-- `Xor.get_default_height` (logicgates.py 257-258): returns the width. -/
def XorGate.getDefaultHeight (width : ℝ) : ℝ := width

/-- `BoxItem.get_default_height` (logicgates.py 306-307): returns the width. -/
def BoxItem.getDefaultHeight (width : ℝ) : ℝ := width

/-! ### The formula-name counter (formula.py) -/

/-- Decimal rendering of a natural number, modelling Python `str(int)` for the
non-negative counter values: the base-10 digits, most significant first, and
`"0"` for zero. -/
def natStr (n : ℕ) : String :=
  String.mk (if n = 0 then ['0'] else (Nat.digits 10 n).reverse.map Nat.digitChar)

/-- The temporary name `"formula" + str(index)` built by `make_formulas_png`,
`formula_zoom_in.__init__` and `formula_fade_in.__init__`. -/
def formulaName (index : ℕ) : String := "formula" ++ natStr index

/-- A rasterization request: a `make_formulas_png` call (one name per formula
in the list), or the construction of a `formula_zoom_in` or `formula_fade_in`
(one name each). -/
inductive FormulaRequest : Type where
  | makePng (formulas : List String)
  | zoomIn (formula : String)
  | fadeIn (formula : String)

/-- How many counter values a request consumes: `make_formulas_png` advances
`_FORMULA_INDEX` by `len(formulas)` (formula.py 43-46), the two animation
classes advance it by 1 (formula.py 98-100, 180-182). -/
def requestCount : FormulaRequest → ℕ
  | FormulaRequest.makePng fs => fs.length
  | FormulaRequest.zoomIn _ => 1
  | FormulaRequest.fadeIn _ => 1

/-- The temporary names a request generates when the counter stands at `idx`:
`["formula" + str(idx + i) for i in range(len(formulas))]` for
`make_formulas_png`, and the single name `"formula" + str(idx)` for the
animation classes. -/
def requestNames (idx : ℕ) : FormulaRequest → List String
  | FormulaRequest.makePng fs => (List.range fs.length).map (fun i => formulaName (idx + i))
  | FormulaRequest.zoomIn _ => [formulaName idx]
  | FormulaRequest.fadeIn _ => [formulaName idx]

/-- Running a sequence of rasterization requests against the process-wide
counter `_FORMULA_INDEX` starting at `idx`: returns all generated names in
order and the final counter value. -/
def runRequests : ℕ → List FormulaRequest → List String × ℕ
  | idx, [] => ([], idx)
  | idx, r :: rs =>
      let rest := runRequests (idx + requestCount r) rs
      (requestNames idx r ++ rest.1, rest.2)

/-- Total number of formulas rasterized by a sequence of requests. -/
def totalCount (rs : List FormulaRequest) : ℕ := (rs.map requestCount).sum

/-! ### Concrete inputs used by witnesses and counterexamples -/

/-- The origin, used as a concrete arc endpoint. -/
noncomputable def pA : Vec := (0, 0)

/-- The point (1, 0), used as a concrete arc endpoint (chord length 1). -/
noncomputable def pB : Vec := (1, 0)

/-- A concrete symbol with two connector columns: column 0 holds two points,
column 1 holds one point. -/
noncomputable def symA : Symbol :=
  { position := (10, 20), width := 30,
    connectors := [[(0, 0), (0, 5)], [(7, 2)]] }

/-- A concrete vertex at (100, 100). -/
noncomputable def vA : Vertex := { position := (100, 100), label := "A" }

/-- A concrete vertex at (200, 150). -/
noncomputable def vB : Vertex := { position := (200, 150), label := "B" }

/-- A concrete self-loop edge on vertex 0 with the default loop radius 30 and
loop angle 0. -/
noncomputable def eLoop : Edge := { start := 0, endIdx := 0 }

/-- A concrete straight, undirected, weighted edge from vertex 0 to vertex 1. -/
noncomputable def eWeighted : Edge := { start := 0, endIdx := 1, weight := some 5 }

/-! ## Helper lemmas -/

lemma len_eq_abs_of_sq {v : Vec} {r : ℝ} (h : v.1 ^ 2 + v.2 ^ 2 = r ^ 2) : len v = |r| := by
  rw [len, h, Real.sqrt_sq_eq_abs]

lemma len_polar (r θ : ℝ) : len (polar r θ) = |r| := by
  apply len_eq_abs_of_sq
  have hs := Real.sin_sq_add_cos_sq θ
  show (r * Real.cos θ) ^ 2 + (r * Real.sin θ) ^ 2 = r ^ 2
  nlinarith [hs]

lemma complex_abs_eq_len (v : Vec) : Complex.abs ⟨v.1, v.2⟩ = len v := by
  rw [Complex.abs_apply, Complex.normSq_mk, len]
  congr 1
  ring

lemma complex_ne_zero_of_vec {v : Vec} (hv : v ≠ (0, 0)) : (⟨v.1, v.2⟩ : ℂ) ≠ 0 := by
  intro h
  apply hv
  have h1 := congrArg Complex.re h
  have h2 := congrArg Complex.im h
  simp at h1 h2
  exact Prod.ext h1 h2

lemma cos_angle {v : Vec} (hv : v ≠ (0, 0)) : Real.cos (angle v) = v.1 / len v := by
  rw [angle, Complex.cos_arg (complex_ne_zero_of_vec hv), complex_abs_eq_len]

lemma sin_angle (v : Vec) : Real.sin (angle v) = v.2 / len v := by
  rw [angle, Complex.sin_arg, complex_abs_eq_len]

lemma len_neg (v : Vec) : len (-v) = len v := by
  rw [len, len, Prod.fst_neg, Prod.snd_neg, neg_sq, neg_sq]

lemma chordLen_sq (p0 p1 : Vec) :
    (p1 - p0).1 ^ 2 + (p1 - p0).2 ^ 2 = chordLen p0 p1 ^ 2 := by
  rw [chordLen, len, Real.sq_sqrt (by positivity)]

lemma chordLen_pA_pB : chordLen pA pB = 1 := by
  simp [chordLen, pA, pB, len]

lemma asinArg_eq (p0 p1 : Vec) {k : ℝ} (hl : chordLen p0 p1 ≠ 0) :
    asinArg p0 p1 k = 0.6 * k := by
  rw [asinArg, arcRadius]
  field_simp
  ring

lemma arcRadius_ne_zero (p0 p1 : Vec) {k : ℝ} (hl : chordLen p0 p1 ≠ 0) (hk : k ≠ 0) :
    arcRadius p0 p1 k ≠ 0 := by
  rw [arcRadius]
  exact div_ne_zero hl (mul_ne_zero (by norm_num) hk)

lemma arcHeight_sq (p0 p1 : Vec) {k : ℝ} (hl : chordLen p0 p1 ≠ 0) (hk : k ≠ 0)
    (hdom : |asinArg p0 p1 k| ≤ 1) :
    arcHeight p0 p1 k ^ 2 = arcRadius p0 p1 k ^ 2 - chordLen p0 p1 ^ 2 / 4 := by
  have hr := arcRadius_ne_zero p0 p1 hl hk
  have ht2 : asinArg p0 p1 k ^ 2 ≤ 1 := by
    obtain ⟨h1, h2⟩ := abs_le.mp hdom
    nlinarith
  rw [arcHeight, arcHalfAngle, mul_pow, Real.cos_arcsin,
    Real.sq_sqrt (by linarith)]
  rw [asinArg]
  field_simp
  ring

lemma sumsq_center (x y l h r : ℝ) (hxy : x ^ 2 + y ^ 2 = l ^ 2)
    (hh2 : h ^ 2 = r ^ 2 - l ^ 2 / 4) (hl0 : l ≠ 0) :
    ((x / 2 - h * (y / l)) ^ 2 + (y / 2 + h * (x / l)) ^ 2 = r ^ 2)
    ∧ ((x - (x / 2 - h * (y / l))) ^ 2 + (y - (y / 2 + h * (x / l))) ^ 2 = r ^ 2) := by
  constructor
  · have e1 : (x / 2 - h * (y / l)) ^ 2 + (y / 2 + h * (x / l)) ^ 2
        = (x ^ 2 + y ^ 2) / 4 + h ^ 2 * (x ^ 2 + y ^ 2) / l ^ 2 := by ring
    rw [e1, hxy, mul_div_assoc, div_self (pow_ne_zero 2 hl0), mul_one]
    linarith
  · have e2 : (x - (x / 2 - h * (y / l))) ^ 2 + (y - (y / 2 + h * (x / l))) ^ 2
        = (x ^ 2 + y ^ 2) / 4 + h ^ 2 * (x ^ 2 + y ^ 2) / l ^ 2 := by ring
    rw [e2, hxy, mul_div_assoc, div_self (pow_ne_zero 2 hl0), mul_one]
    linarith

lemma weightOffset_none (d : Vec) (ts : ℝ) (hd : d ≠ (0, 0)) :
    weightOffset none ts d = ((0.7 * ts) / len d) • (d.2, -d.1) := by
  show polar (ts * 0.7) (angle d - Real.pi / 2) = _
  rw [polar, Real.cos_sub_pi_div_two, Real.sin_sub_pi_div_two, sin_angle, cos_angle hd]
  apply Prod.ext <;> simp [smul_eq_mul] <;> ring

lemma digitChar_inj_lt : ∀ a < 10, ∀ b < 10, Nat.digitChar a = Nat.digitChar b → a = b := by
  decide

lemma map_digitChar_inj : ∀ (l1 l2 : List ℕ), (∀ d ∈ l1, d < 10) → (∀ d ∈ l2, d < 10) →
    l1.map Nat.digitChar = l2.map Nat.digitChar → l1 = l2 := by
  intro l1
  induction l1 with
  | nil =>
    intro l2 _ _ h
    cases l2 with
    | nil => rfl
    | cons b t2 => simp at h
  | cons a t ih =>
    intro l2 h1 h2 h
    cases l2 with
    | nil => simp at h
    | cons b t2 =>
      simp only [List.map_cons, List.cons.injEq] at h
      have hab := digitChar_inj_lt a (h1 a (by simp)) b (h2 b (by simp)) h.1
      subst hab
      rw [ih t2 (fun d hd => h1 d (by simp [hd])) (fun d hd => h2 d (by simp [hd])) h.2]

lemma digits_rev_map_ne_zero {n : ℕ} (hn : n ≠ 0)
    (h : (Nat.digits 10 n).reverse.map Nat.digitChar = ['0']) : False := by
  have hrev : (Nat.digits 10 n).reverse = [0] := by
    apply map_digitChar_inj
    · intro d hd
      exact Nat.digits_lt_base (by norm_num) (List.mem_reverse.mp hd)
    · intro d hd
      simp at hd
      omega
    · rw [h]
      rfl
  have hdig : Nat.digits 10 n = [0] := by
    rw [← List.reverse_reverse (Nat.digits 10 n), hrev]
    rfl
  have hofd := Nat.ofDigits_digits 10 n
  rw [hdig] at hofd
  simp [Nat.ofDigits] at hofd
  exact hn hofd.symm

lemma natStr_injective : Function.Injective natStr := by
  intro m n h
  have hdata := congrArg String.data h
  simp only [natStr] at hdata
  by_cases hm : m = 0 <;> by_cases hn : n = 0
  · rw [hm, hn]
  · rw [if_pos hm, if_neg hn] at hdata
    exact absurd hdata.symm (fun hc => digits_rev_map_ne_zero hn hc)
  · rw [if_neg hm, if_pos hn] at hdata
    exact absurd hdata (fun hc => digits_rev_map_ne_zero hm hc)
  · rw [if_neg hm, if_neg hn] at hdata
    have hrev : (Nat.digits 10 m).reverse = (Nat.digits 10 n).reverse := by
      apply map_digitChar_inj _ _ ?_ ?_ hdata
      · intro d hd
        exact Nat.digits_lt_base (by norm_num) (List.mem_reverse.mp hd)
      · intro d hd
        exact Nat.digits_lt_base (by norm_num) (List.mem_reverse.mp hd)
    have hdig : Nat.digits 10 m = Nat.digits 10 n := by
      rw [← List.reverse_reverse (Nat.digits 10 m), hrev, List.reverse_reverse]
    have h1 := Nat.ofDigits_digits 10 m
    have h2 := Nat.ofDigits_digits 10 n
    rw [hdig, h2] at h1
    exact h1.symm

lemma string_append_cancel_left {p s t : String} (h : p ++ s = p ++ t) : s = t := by
  have hd := congrArg String.data h
  simp only [String.data_append] at hd
  exact congrArg String.mk (List.append_cancel_left hd)

lemma formulaName_injective : Function.Injective formulaName := by
  intro m n h
  exact natStr_injective (string_append_cancel_left h)

lemma requestNames_eq (idx : ℕ) (r : FormulaRequest) :
    requestNames idx r = (List.range (requestCount r)).map (fun i => formulaName (idx + i)) := by
  cases r with
  | makePng fs => rfl
  | zoomIn f =>
    show [formulaName idx] = List.map (fun i => formulaName (idx + i)) (List.range 1)
    rw [show List.range 1 = [0] from rfl]
    simp
  | fadeIn f =>
    show [formulaName idx] = List.map (fun i => formulaName (idx + i)) (List.range 1)
    rw [show List.range 1 = [0] from rfl]
    simp

lemma totalCount_cons (r : FormulaRequest) (rs : List FormulaRequest) :
    totalCount (r :: rs) = requestCount r + totalCount rs := by
  simp [totalCount]

lemma runRequests_snd (rs : List FormulaRequest) :
    ∀ idx, (runRequests idx rs).2 = idx + totalCount rs := by
  induction rs with
  | nil =>
    intro idx
    simp [runRequests, totalCount]
  | cons r rs ih =>
    intro idx
    show (runRequests (idx + requestCount r) rs).2 = _
    rw [ih, totalCount_cons]
    omega

lemma runRequests_fst (rs : List FormulaRequest) :
    ∀ idx, (runRequests idx rs).1
      = (List.range (totalCount rs)).map (fun i => formulaName (idx + i)) := by
  induction rs with
  | nil =>
    intro idx
    simp [runRequests, totalCount]
  | cons r rs ih =>
    intro idx
    show requestNames idx r ++ (runRequests (idx + requestCount r) rs).1 = _
    rw [ih, requestNames_eq, totalCount_cons, List.range_add, List.map_append, List.map_map]
    congr 1
    apply List.map_congr_left
    intro a _
    simp only [Function.comp]
    exact congrArg formulaName (by omega)

lemma runRequests_names_nodup (idx : ℕ) (rs : List FormulaRequest) :
    (runRequests idx rs).1.Nodup := by
  rw [runRequests_fst]
  refine List.Nodup.map ?_ (List.nodup_range _)
  intro a b hab
  exact Nat.add_left_cancel (formulaName_injective hab)

/-! ## Claim theorems -/

/-- Claim C1 (amended): for distinct endpoints (chord length `l > 0`) and any
nonzero curvature `k` whose asin argument is feasible, the arc solver computes
`radius = l/(1.2*k)`, succeeds, and the returned apex as well as both
endpoints lie at exactly distance `|radius|` from the computed centre; the
absolute value equals `radius` itself whenever `k > 0`. -/
theorem arc_circle_invariant :
    ∀ (p0 p1 : Vec) (k : ℝ), 0 < chordLen p0 p1 → k ≠ 0 → |asinArg p0 p1 k| ≤ 1 →
      arcRadius p0 p1 k = chordLen p0 p1 / (1.2 * k)
      ∧ arcBetweenPoints p0 p1 k
          = some ([DrawOp.arc (arcCenter p0 p1 k) (arcRadius p0 p1 k)
                    (arcChordAngle p0 p1 - arcHalfAngle p0 p1 k)
                    (arcChordAngle p0 p1 + arcHalfAngle p0 p1 k)], arcApex p0 p1 k)
      ∧ len (arcApex p0 p1 k - arcCenter p0 p1 k) = |arcRadius p0 p1 k|
      ∧ len (p0 - arcCenter p0 p1 k) = |arcRadius p0 p1 k|
      ∧ len (p1 - arcCenter p0 p1 k) = |arcRadius p0 p1 k|
      ∧ (0 < k → |arcRadius p0 p1 k| = arcRadius p0 p1 k) := by
  intro p0 p1 k hl hk hdom
  have hl0 : chordLen p0 p1 ≠ 0 := ne_of_gt hl
  have hkey := sumsq_center (p1 - p0).1 (p1 - p0).2 (chordLen p0 p1)
    (arcHeight p0 p1 k) (arcRadius p0 p1 k) (chordLen_sq p0 p1)
    (arcHeight_sq p0 p1 hl0 hk hdom) hl0
  refine ⟨rfl, ?_, ?_, ?_, ?_, ?_⟩
  · rw [arcBetweenPoints, if_neg (by push_neg; exact ⟨hk, hl0⟩), if_neg (not_lt.mpr hdom)]
  · rw [arcApex, add_sub_cancel_left, len_polar]
  · have hc : p0 - arcCenter p0 p1 k
        = -((p1 - p0).1 / 2 - arcHeight p0 p1 k * ((p1 - p0).2 / chordLen p0 p1),
            (p1 - p0).2 / 2 + arcHeight p0 p1 k * ((p1 - p0).1 / chordLen p0 p1)) := by
      rw [arcCenter]
      abel
    rw [hc, len_neg]
    exact len_eq_abs_of_sq hkey.1
  · have hc1 : p1 - arcCenter p0 p1 k
        = ((p1 - p0).1 - ((p1 - p0).1 / 2 - arcHeight p0 p1 k * ((p1 - p0).2 / chordLen p0 p1)),
           (p1 - p0).2 - ((p1 - p0).2 / 2 + arcHeight p0 p1 k * ((p1 - p0).1 / chordLen p0 p1))) := by
      rw [arcCenter]
      apply Prod.ext <;> simp <;> ring
    rw [hc1]
    exact len_eq_abs_of_sq hkey.2
  · intro hkpos
    apply abs_of_pos
    rw [arcRadius]
    exact div_pos hl (by positivity)

/-- Counterexample to Claim C1 as stated: at `p0 = (0,0)`, `p1 = (1,0)` and
curvature `k = -1` the computation is feasible (the asin argument is `-3/5`),
but the apex lies at distance `5/6` from the centre while the computed radius
is `-(5/6)`, so the distance is not equal to `radius`. -/
theorem arc_circle_invariant_cex :
    0 < chordLen pA pB ∧ |asinArg pA pB (-1)| ≤ 1
    ∧ arcBetweenPoints pA pB (-1) ≠ none
    ∧ len (arcApex pA pB (-1) - arcCenter pA pB (-1)) = 5 / 6
    ∧ arcRadius pA pB (-1) = -(5 / 6)
    ∧ len (arcApex pA pB (-1) - arcCenter pA pB (-1)) ≠ arcRadius pA pB (-1) := by
  have hl : chordLen pA pB = 1 := chordLen_pA_pB
  have hr : arcRadius pA pB (-1) = -(5 / 6) := by
    rw [arcRadius, hl]; norm_num
  have harg : asinArg pA pB (-1) = -(3 / 5) := by
    rw [asinArg, hl, hr]; norm_num
  have habs : |asinArg pA pB (-1)| ≤ 1 := by rw [harg]; norm_num [abs_le]
  have hlen : len (arcApex pA pB (-1) - arcCenter pA pB (-1)) = 5 / 6 := by
    rw [arcApex, add_sub_cancel_left, len_polar, hr]
    norm_num
  refine ⟨by rw [hl]; norm_num, habs, ?_, hlen, hr, by rw [hlen, hr]; norm_num⟩
  rw [arcBetweenPoints, if_neg (by rw [hl]; norm_num), if_neg (not_lt.mpr habs)]
  exact Option.some_ne_none _

/-- Witness for the amended Claim C1 at `p0 = (0,0)`, `p1 = (1,0)`, `k = 1`. -/
theorem arc_circle_invariant_check :
    arcRadius pA pB 1 = chordLen pA pB / (1.2 * 1)
    ∧ arcBetweenPoints pA pB 1
        = some ([DrawOp.arc (arcCenter pA pB 1) (arcRadius pA pB 1)
                  (arcChordAngle pA pB - arcHalfAngle pA pB 1)
                  (arcChordAngle pA pB + arcHalfAngle pA pB 1)], arcApex pA pB 1)
    ∧ len (arcApex pA pB 1 - arcCenter pA pB 1) = |arcRadius pA pB 1|
    ∧ len (pA - arcCenter pA pB 1) = |arcRadius pA pB 1|
    ∧ len (pB - arcCenter pA pB 1) = |arcRadius pA pB 1|
    ∧ (0 < (1 : ℝ) → |arcRadius pA pB 1| = arcRadius pA pB 1) :=
  arc_circle_invariant pA pB 1 (by rw [chordLen_pA_pB]; norm_num) (by norm_num)
    (by rw [asinArg_eq pA pB (by rw [chordLen_pA_pB]; norm_num)]; norm_num [abs_le])

/-- Claim C2 (amended): the asin argument `l/(2*radius)` is within the asin
domain iff `|radius| ≥ l/2`, equivalently iff `|k| ≤ 5/3`: it is the larger
magnitudes of the curvature that violate the requirement, and when it is
violated the unguarded `asin` call fails (the solver returns `none`). -/
theorem arc_asin_domain :
    ∀ (p0 p1 : Vec) (k : ℝ), 0 < chordLen p0 p1 → k ≠ 0 →
      (|asinArg p0 p1 k| ≤ 1 ↔ chordLen p0 p1 / 2 ≤ |arcRadius p0 p1 k|)
      ∧ (|asinArg p0 p1 k| ≤ 1 ↔ |k| ≤ 5 / 3)
      ∧ (1 < |asinArg p0 p1 k| → arcBetweenPoints p0 p1 k = none) := by
  intro p0 p1 k hl hk
  have hl0 : chordLen p0 p1 ≠ 0 := ne_of_gt hl
  have hargabs : |asinArg p0 p1 k| = 0.6 * |k| := by
    rw [asinArg_eq p0 p1 hl0, abs_mul]
    norm_num
  have hkabs : 0 < |k| := abs_pos.mpr hk
  have hiff2 : |asinArg p0 p1 k| ≤ 1 ↔ |k| ≤ 5 / 3 := by
    rw [hargabs]
    constructor <;> intro h <;> linarith
  refine ⟨?_, hiff2, ?_⟩
  · have hrabs : |arcRadius p0 p1 k| = chordLen p0 p1 / (1.2 * |k|) := by
      rw [arcRadius, abs_div, abs_of_pos hl, abs_mul,
        abs_of_pos (show (0 : ℝ) < 1.2 by norm_num)]
    rw [hiff2, hrabs]
    rw [div_le_div_iff₀ (by norm_num) (by positivity)]
    constructor <;> intro h <;> nlinarith
  · intro h
    rw [arcBetweenPoints, if_neg (by push_neg; exact ⟨hk, hl0⟩), if_pos h]

/-- Counterexample to Claim C2 as stated: with endpoints `(0,0)`, `(1,0)`
(chord length 1), the smaller curvature magnitude `1/2` keeps `asin` in its
domain (`radius = 5/3 ≥ 1/2`) while the larger magnitude `2` violates it
(`radius = 5/12 < 1/2` and the solver fails); moreover at `k = -1` the call
is feasible even though `radius ≥ l/2` fails, so the domain condition is
about `|radius|`. -/
theorem arc_asin_domain_cex :
    (1 / 2 : ℝ) < 2
    ∧ arcRadius pA pB (1 / 2) = 5 / 3
    ∧ chordLen pA pB / 2 ≤ arcRadius pA pB (1 / 2)
    ∧ |asinArg pA pB (1 / 2)| ≤ 1
    ∧ arcBetweenPoints pA pB (1 / 2) ≠ none
    ∧ arcRadius pA pB 2 = 5 / 12
    ∧ arcRadius pA pB 2 < chordLen pA pB / 2
    ∧ 1 < |asinArg pA pB 2|
    ∧ arcBetweenPoints pA pB 2 = none
    ∧ |asinArg pA pB (-1)| ≤ 1
    ∧ arcRadius pA pB (-1) < chordLen pA pB / 2 := by
  have hl : chordLen pA pB = 1 := chordLen_pA_pB
  have hl0 : chordLen pA pB ≠ 0 := by rw [hl]; norm_num
  have h1 : arcRadius pA pB (1 / 2) = 5 / 3 := by rw [arcRadius, hl]; norm_num
  have h2 : arcRadius pA pB 2 = 5 / 12 := by rw [arcRadius, hl]; norm_num
  have ha1 : |asinArg pA pB (1 / 2)| ≤ 1 := by
    rw [asinArg_eq pA pB hl0]; norm_num [abs_le]
  have ha2 : 1 < |asinArg pA pB 2| := by
    rw [asinArg_eq pA pB hl0]
    rw [abs_of_nonneg (by norm_num)]
    norm_num
  have ha3 : |asinArg pA pB (-1)| ≤ 1 := by
    rw [asinArg_eq pA pB hl0]; norm_num [abs_le]
  refine ⟨by norm_num, h1, by rw [h1, hl]; norm_num, ha1, ?_, h2, by rw [h2, hl]; norm_num,
    ha2, ?_, ha3, ?_⟩
  · rw [arcBetweenPoints, if_neg (by rw [hl]; norm_num), if_neg (not_lt.mpr ha1)]
    exact Option.some_ne_none _
  · rw [arcBetweenPoints, if_neg (by rw [hl]; norm_num), if_pos ha2]
  · rw [arcRadius, hl]; norm_num

/-- Witness for the amended Claim C2 at `p0 = (0,0)`, `p1 = (1,0)`, `k = 1`. -/
theorem arc_asin_domain_check :
    (|asinArg pA pB 1| ≤ 1 ↔ chordLen pA pB / 2 ≤ |arcRadius pA pB 1|)
    ∧ (|asinArg pA pB 1| ≤ 1 ↔ |(1 : ℝ)| ≤ 5 / 3)
    ∧ (1 < |asinArg pA pB 1| → arcBetweenPoints pA pB 1 = none) :=
  arc_asin_domain pA pB 1 (by rw [chordLen_pA_pB]; norm_num) (by norm_num)

/-- Claim C3: for a loop edge the loop centre equals
`p + polar(r + 0.8*R, t)` and lies at distance `r + 0.8*R` from the vertex
centre, the loop apex equals `centre + polar(R, t)` and lies at distance `R`
from the loop centre; for `r = R = 30`, `t = 0` the centre is the vertex
centre plus `(54, 0)`; and `Edge.draw` emits the loop circle at exactly that
centre. -/
theorem loop_edge_geometry :
    (∀ (p : Vec) (r R t : ℝ), 0 ≤ r → 0 ≤ R →
        loopCenter p r R t = p + polar (r + 0.8 * R) t
        ∧ loopApex p r R t = loopCenter p r R t + polar R t
        ∧ len (loopCenter p r R t - p) = r + 0.8 * R
        ∧ len (loopApex p r R t - loopCenter p r R t) = R)
    ∧ (∀ p : Vec, loopCenter p 30 30 0 = p + (54, 0))
    ∧ (∀ (e : Edge) (vertices : List Vertex) (lw ts vr : ℝ) (v0 : Vertex),
        pyIdx vertices e.start = some v0 → e.start = e.endIdx →
        e.directed = false → e.weight = none →
        e.drawOps vertices lw ts vr
          = some [DrawOp.circle (loopCenter v0.position vr e.loop_radius e.loop_angle)
                    e.loop_radius]) := by
  refine ⟨?_, ?_, ?_⟩
  · intro p r R t hr hR
    have harg : r + R * 0.8 = r + 0.8 * R := by ring
    refine ⟨by rw [loopCenter, harg], rfl, ?_, ?_⟩
    · rw [loopCenter, add_sub_cancel_left, len_polar, harg,
        abs_of_nonneg (by nlinarith)]
    · rw [loopApex, add_sub_cancel_left, len_polar, abs_of_nonneg hR]
  · intro p
    rw [loopCenter]
    norm_num [polar]
  · intro e vertices lw ts vr v0 h1 h2 h3 h4
    have h2' : pyIdx vertices e.endIdx = some v0 := h2 ▸ h1
    simp [Edge.drawOps, h1, h2', h2, h3, h4]

/-- Witness for Claim C3 at a vertex of radius 30 with loop radius 30 and
loop angle 0. -/
theorem loop_edge_geometry_check :
    (loopCenter (1, 2) 30 30 0 = (1, 2) + polar (30 + 0.8 * 30) 0
      ∧ loopApex (1, 2) 30 30 0 = loopCenter (1, 2) 30 30 0 + polar 30 0
      ∧ len (loopCenter (1, 2) 30 30 0 - (1, 2)) = 30 + 0.8 * 30
      ∧ len (loopApex (1, 2) 30 30 0 - loopCenter (1, 2) 30 30 0) = 30)
    ∧ loopCenter (100, 100) 30 30 0 = (100, 100) + (54, 0)
    ∧ eLoop.drawOps [vA] 4 30 30
        = some [DrawOp.circle (loopCenter vA.position 30 eLoop.loop_radius eLoop.loop_angle)
                  eLoop.loop_radius] :=
  ⟨loop_edge_geometry.1 (1, 2) 30 30 0 (by norm_num) (by norm_num),
   loop_edge_geometry.2.1 (100, 100),
   loop_edge_geometry.2.2 eLoop [vA] 4 30 30 vA rfl rfl rfl rfl⟩

/-- Claim C4: `get_connector` with in-range indices is a pure lookup: it
returns the declared local connector offset plus the symbol's placement
position, leaves the symbol state unchanged, and a repeated call with the same
arguments returns the same position. -/
theorem get_connector_pure :
    ∀ (s : Symbol) (col row : ℤ) (pts : List Vec) (pt : Vec),
      0 ≤ col → col < (s.connectors.length : ℤ) →
      s.connectors.getD col.toNat [] = pts →
      0 ≤ row → row < (pts.length : ℤ) →
      pts.getD row.toNat (0, 0) = pt →
      (s.getConnectorS col row).1 = Except.ok (pt + s.position)
      ∧ (s.getConnectorS col row).2 = s
      ∧ (Symbol.getConnectorS ((s.getConnectorS col row).2) col row).1
          = (s.getConnectorS col row).1 := by
  intro s col row pts pt hc0 hc1 hpts hr0 hr1 hpt
  refine ⟨?_, rfl, rfl⟩
  show s.getConnector col row = _
  unfold Symbol.getConnector
  rw [hpts, if_neg (by omega), if_neg (by omega), hpt]

/-- Witness for Claim C4 on the concrete symbol `symA` at `(col, row) = (0, 1)`. -/
theorem get_connector_pure_check :
    (symA.getConnectorS 0 1).1 = Except.ok (((0 : ℝ), (5 : ℝ)) + symA.position)
    ∧ (symA.getConnectorS 0 1).2 = symA
    ∧ (Symbol.getConnectorS ((symA.getConnectorS 0 1).2) 0 1).1
        = (symA.getConnectorS 0 1).1 :=
  get_connector_pure symA 0 1 [(0, 0), (0, 5)] (0, 5) (by decide) (by decide) rfl
    (by decide) (by decide) rfl

/-- Claim C5: `get_connector` signals the out-of-range `ValueError` exactly
when `(col, row)` is out of range; in particular `col = len(connectors)`,
`col = -1`, and `row = len(connectors[col])` all raise; and the symbol state
is never modified. -/
theorem get_connector_range_error :
    ∀ (s : Symbol) (col row : ℤ),
      ((∃ msg, (s.getConnectorS col row).1 = Except.error msg) ↔ ¬connectorInRange s col row)
      ∧ (s.getConnectorS (s.connectors.length : ℤ) row).1
          = Except.error "Connector column out of range"
      ∧ (s.getConnectorS (-1) row).1 = Except.error "Connector column out of range"
      ∧ (0 ≤ col → col < (s.connectors.length : ℤ) →
          (s.getConnectorS col ((s.connectors.getD col.toNat []).length : ℤ)).1
            = Except.error "Connector row out of range")
      ∧ (s.getConnectorS col row).2 = s := by
  intro s col row
  refine ⟨?_, ?_, ?_, ?_, rfl⟩
  · show (∃ msg, s.getConnector col row = Except.error msg) ↔ _
    unfold Symbol.getConnector connectorInRange
    by_cases h1 : col < 0 ∨ (s.connectors.length : ℤ) ≤ col
    · rw [if_pos h1]
      constructor
      · intro _
        omega
      · intro _
        exact ⟨_, rfl⟩
    · rw [if_neg h1]
      by_cases h2 : row < 0 ∨ ((s.connectors.getD col.toNat []).length : ℤ) ≤ row
      · rw [if_pos h2]
        constructor
        · intro _
          omega
        · intro _
          exact ⟨_, rfl⟩
      · rw [if_neg h2]
        constructor
        · rintro ⟨msg, hmsg⟩
          simp at hmsg
        · intro hn
          exfalso
          omega
  · show s.getConnector _ row = _
    unfold Symbol.getConnector
    rw [if_pos (by omega)]
  · show s.getConnector (-1) row = _
    unfold Symbol.getConnector
    rw [if_pos (by omega)]
  · intro h1 h2
    show s.getConnector col _ = _
    unfold Symbol.getConnector
    rw [if_neg (by omega), if_pos (by omega)]

/-- Witness for Claim C5 on the concrete symbol `symA` (2 connector columns). -/
theorem get_connector_range_error_check :
    ((∃ msg, (symA.getConnectorS 5 0).1 = Except.error msg) ↔ ¬connectorInRange symA 5 0)
    ∧ (symA.getConnectorS (symA.connectors.length : ℤ) 0).1
        = Except.error "Connector column out of range"
    ∧ (symA.getConnectorS (-1) 0).1 = Except.error "Connector column out of range"
    ∧ (symA.getConnectorS 1 ((symA.connectors.getD (1 : ℤ).toNat []).length : ℤ)).1
        = Except.error "Connector row out of range"
    ∧ (symA.getConnectorS 5 0).2 = symA :=
  ⟨(get_connector_range_error symA 5 0).1,
   (get_connector_range_error symA 5 0).2.1,
   (get_connector_range_error symA 5 0).2.2.1,
   (get_connector_range_error symA 1 0).2.2.2.1 (by decide) (by decide),
   (get_connector_range_error symA 5 0).2.2.2.2⟩

/-- Claim C6: `Graph.draw` emits all edge operations (in edge-list order)
before all vertex operations (in vertex-list order); on the 4-vertex scenario
graph this yields exactly 4 line strokes followed by 4 circle+label pairs. -/
theorem graph_draw_order :
    (∀ (g : Graph) (edgeOpss : List (List DrawOp)),
        g.edges.mapM (fun e => e.drawOps g.vertices g.lw g.text_size g.radius) = some edgeOpss →
        g.drawOps = some (edgeOpss.flatten
          ++ (g.vertices.map (fun v => v.drawOps g.radius g.text_size)).flatten))
    ∧ scenarioGraph.drawOps = some
        [DrawOp.line (100, 100) (100, 300), DrawOp.line (100, 300) (300, 200),
         DrawOp.line (200, 50) (100, 100), DrawOp.line (300, 200) (200, 50),
         DrawOp.circle (100, 100) 30, DrawOp.text (100, 100) 30 (0, 0),
         DrawOp.circle (100, 300) 30, DrawOp.text (100, 300) 30 (0, 0),
         DrawOp.circle (200, 50) 30, DrawOp.text (200, 50) 30 (0, 0),
         DrawOp.circle (300, 200) 30, DrawOp.text (300, 200) 30 (0, 0)] := by
  constructor
  · intro g edgeOpss h
    unfold Graph.drawOps
    rw [h]
  · rfl

/-- Witness for Claim C6 on a graph with one vertex and no edges. -/
theorem graph_draw_order_check :
    Graph.drawOps { vertices := [vA], edges := [] }
      = some (List.flatten []
          ++ (List.map (fun v => v.drawOps (30 : ℝ) (30 : ℝ)) [vA]).flatten) :=
  graph_draw_order.1 { vertices := [vA], edges := [] } [] rfl

/-- Claim C7: a weight label drawn without an explicit offset override gets an
offset of magnitude exactly `0.7 * text_size`, directed as the edge direction
rotated by -90 degrees (hence perpendicular to it); an explicit offset is used
unchanged; and a weighted straight edge emits its label with exactly this
offset. -/
theorem weight_label_offset :
    (∀ (d : Vec) (ts : ℝ) (o : Vec),
        (0 ≤ ts → len (weightOffset none ts d) = 0.7 * ts)
        ∧ (d ≠ (0, 0) → weightOffset none ts d = ((0.7 * ts) / len d) • (d.2, -d.1))
        ∧ (d ≠ (0, 0) → dot (weightOffset none ts d) d = 0)
        ∧ weightOffset (some o) ts d = o)
    ∧ (∀ (e : Edge) (vertices : List Vertex) (lw tsd vr : ℝ) (v0 v1 : Vertex) (w : ℝ),
        pyIdx vertices e.start = some v0 → pyIdx vertices e.endIdx = some v1 →
        e.start ≠ e.endIdx → e.curve = false → e.directed = false →
        e.weight = some w → e.text_size = none →
        e.drawOps vertices lw tsd vr
          = some [DrawOp.line v0.position v1.position,
                  DrawOp.text ((1 / 2 : ℝ) • (v0.position + v1.position)) tsd
                    (weightOffset e.offset tsd (v1.position - v0.position))]) := by
  constructor
  · intro d ts o
    refine ⟨?_, weightOffset_none d ts, ?_, rfl⟩
    · intro hts
      show len (polar (ts * 0.7) (angle d - Real.pi / 2)) = 0.7 * ts
      rw [len_polar, abs_of_nonneg (by positivity)]
      ring
    · intro hd
      rw [weightOffset_none d ts hd]
      simp [dot, smul_eq_mul]
      ring
  · intro e vertices lw tsd vr v0 v1 w h1 h2 hne hcurve hdir hw hts
    simp [Edge.drawOps, h1, h2, hne, hcurve, hdir, hw, hts]

/-- Witness for Claim C7 with edge direction `(1, 0)`, text size 2, explicit
offset `(3, 4)`, and the concrete weighted straight edge `eWeighted`. -/
theorem weight_label_offset_check :
    (0 ≤ (2 : ℝ) → len (weightOffset none 2 ((1 : ℝ), (0 : ℝ))) = 0.7 * 2)
    ∧ (((1 : ℝ), (0 : ℝ)) ≠ ((0 : ℝ), (0 : ℝ)) →
        weightOffset none 2 ((1 : ℝ), (0 : ℝ))
          = ((0.7 * 2) / len ((1 : ℝ), (0 : ℝ))) • ((0 : ℝ), -(1 : ℝ)))
    ∧ (((1 : ℝ), (0 : ℝ)) ≠ ((0 : ℝ), (0 : ℝ)) →
        dot (weightOffset none 2 ((1 : ℝ), (0 : ℝ))) ((1 : ℝ), (0 : ℝ)) = 0)
    ∧ weightOffset (some ((3 : ℝ), (4 : ℝ))) 2 ((1 : ℝ), (0 : ℝ)) = ((3 : ℝ), (4 : ℝ))
    ∧ eWeighted.drawOps [vA, vB] 4 30 30
        = some [DrawOp.line vA.position vB.position,
                DrawOp.text ((1 / 2 : ℝ) • (vA.position + vB.position)) 30
                  (weightOffset eWeighted.offset 30 (vB.position - vA.position))] :=
  ⟨(weight_label_offset.1 (1, 0) 2 (3, 4)).1,
   (weight_label_offset.1 (1, 0) 2 (3, 4)).2.1,
   (weight_label_offset.1 (1, 0) 2 (3, 4)).2.2.1,
   (weight_label_offset.1 (1, 0) 2 (3, 4)).2.2.2,
   weight_label_offset.2 eWeighted [vA, vB] 4 30 30 vA vB 5 rfl rfl (by decide) rfl rfl rfl rfl⟩

/-- Claim C8: running any sequence of rasterization requests advances the
formula counter by exactly the number of formulas rasterized (so it is
monotonically increasing), and the generated temporary names — one per
consumed counter value — are pairwise distinct. -/
theorem formula_counter_unique :
    ∀ (idx : ℕ) (rs : List FormulaRequest),
      (runRequests idx rs).2 = idx + totalCount rs
      ∧ idx ≤ (runRequests idx rs).2
      ∧ (runRequests idx rs).1
          = (List.range (totalCount rs)).map (fun i => formulaName (idx + i))
      ∧ (runRequests idx rs).1.Nodup := by
  intro idx rs
  refine ⟨runRequests_snd rs idx, ?_, runRequests_fst rs idx, runRequests_names_nodup idx rs⟩
  rw [runRequests_snd rs idx]
  omega

/-- Claim C9: the `height` property returns the explicitly set height only
when it is truthy: an explicit height of `0` (like `None`) falls back to
`get_default_height()`, which for the gate symbols is the width. -/
theorem symbol_height_truthy :
    ∀ (s : Symbol) (d : ℝ),
      (s.fixedHeight = some 0 → s.height d = d)
      ∧ (∀ h, s.fixedHeight = some h → h ≠ 0 → s.height d = h)
      ∧ (s.fixedHeight = none → s.height d = d)
      ∧ (∀ (p : Vec) (w : ℝ) (cs : List (List Vec)),
          Symbol.height ⟨p, w, some 0, cs⟩ (Buffer.getDefaultHeight w) = w
          ∧ Symbol.height ⟨p, w, some 0, cs⟩ (AndGate.getDefaultHeight w) = w
          ∧ Symbol.height ⟨p, w, some 0, cs⟩ (OrGate.getDefaultHeight w) = w
          ∧ Symbol.height ⟨p, w, some 0, cs⟩ (XorGate.getDefaultHeight w) = w
          ∧ Symbol.height ⟨p, w, some 0, cs⟩ (BoxItem.getDefaultHeight w) = w) := by
  intro s d
  refine ⟨?_, ?_, ?_, ?_⟩
  · intro h
    simp [Symbol.height, h]
  · intro h hfix hne
    simp [Symbol.height, hfix, hne]
  · intro h
    simp [Symbol.height, h]
  · intro p w cs
    refine ⟨?_, ?_, ?_, ?_, ?_⟩ <;>
      simp [Symbol.height, Buffer.getDefaultHeight, AndGate.getDefaultHeight,
        OrGate.getDefaultHeight, XorGate.getDefaultHeight, BoxItem.getDefaultHeight]

/-- Witness for Claim C9: explicit height 0 yields the default (the width for
a gate), a nonzero explicit height is honoured, `None` yields the default. -/
theorem symbol_height_truthy_check :
    Symbol.height ⟨((0 : ℝ), (0 : ℝ)), 30, some 0, []⟩ 30 = 30
    ∧ Symbol.height ⟨((0 : ℝ), (0 : ℝ)), 30, some 2, []⟩ 30 = 2
    ∧ Symbol.height ⟨((0 : ℝ), (0 : ℝ)), 30, none, []⟩ 30 = 30
    ∧ Symbol.height ⟨((0 : ℝ), (0 : ℝ)), 30, some 0, []⟩ (Buffer.getDefaultHeight 30) = 30 :=
  ⟨(symbol_height_truthy ⟨((0 : ℝ), (0 : ℝ)), 30, some 0, []⟩ 30).1 rfl,
   (symbol_height_truthy ⟨((0 : ℝ), (0 : ℝ)), 30, some 2, []⟩ 30).2.1 2 rfl (by norm_num),
   (symbol_height_truthy ⟨((0 : ℝ), (0 : ℝ)), 30, none, []⟩ 30).2.2.1 rfl,
   ((symbol_height_truthy ⟨((0 : ℝ), (0 : ℝ)), 30, some 0, []⟩ 30).2.2.2
     ((0 : ℝ), (0 : ℝ)) 30 []).1⟩

/-- Claim C10: `Graph.add` silently ignores an item that is neither a vertex
nor an edge (both lists unchanged, no error), adding a vertex leaves the edge
list unchanged, and adding an edge leaves the vertex list unchanged. -/
theorem graph_add_frame :
    ∀ (g : Graph) (v : Vertex) (e : Edge),
      (g.add GraphItem.other).vertices = g.vertices
      ∧ (g.add GraphItem.other).edges = g.edges
      ∧ (g.add (GraphItem.vertex v)).vertices = g.vertices ++ [v]
      ∧ (g.add (GraphItem.vertex v)).edges = g.edges
      ∧ (g.add (GraphItem.edge e)).vertices = g.vertices
      ∧ (g.add (GraphItem.edge e)).edges = g.edges ++ [e] := by
  intro g v e
  exact ⟨rfl, rfl, rfl, rfl, rfl, rfl⟩

end Genpygoodies
